import Mathlib

/-!
Shallow embedding of the boost_queue repository: the C++ class
`ConcurrentQueue<T>` from concurrent_queue.hpp and the Python binding type
`boost_queue.Queue` from boost_queue.cpp.  Elements are modelled as `Nat`
(the code treats them as opaque pointers).  Each operation is translated to
a pure function on the queue state; its result is an `Outcome`, which also
records whether the call would enter a condition-variable wait.  The
semantics is the closed-world one: the value of an operation describes what
the call does while no other thread intervenes (every mutation in the
source happens inside one critical section, so this captures exactly the
atomic steps another thread could observe).
-/

set_option maxHeartbeats 1000000

namespace BoostQueue

/-- Modulus of `size_t` / `boost::uint64_t` arithmetic (64-bit platform). -/
def W64 : Nat := 2 ^ 64

/-- `size_t` subtraction `a - b` as the C code computes it
(`self->maxsize - self->bridge->queue.size()`); operands of every reachable
state are below `2 ^ 64`. -/
def usub (a b : Nat) : Nat := (W64 + a - b) % W64

/-- Error kinds raised by the code.  `full` / `empty` are
`boost_queue.Full` / `boost_queue.Empty` (and `QueueFull` / `QueueEmpty` in
concurrent_queue.hpp); `valueError` / `overflowError` are the Python
`ValueError` / `OverflowError`; `lenRaised` is a failure of
`PyObject_Length`, `notIterable` a failure of `PyObject_GetIter`,
`iterRaised` an exception raised by `PyIter_Next` during the insertion
loop; `noMoreTasks` is `NoMoreTasks` of concurrent_queue.hpp. -/
inductive Err
  | full
  | empty
  | valueError
  | overflowError
  | lenRaised
  | notIterable
  | iterRaised
  | noMoreTasks
deriving DecidableEq

/-- Result of one call under the closed-world semantics.
`fail e` raises `e` before entering any condition-variable wait;
`timeoutFail e` enters a timed wait, and (no other thread intervening) the
absolute deadline elapses and `e` is raised; `waitForever` enters an
untimed wait from which (no other thread intervening) the call never
returns. -/
inductive Outcome (α : Type)
  | ok (a : α)
  | fail (e : Err)
  | timeoutFail (e : Err)
  | waitForever
deriving DecidableEq

/-- State of a `boost_queue.Queue` object (boost_queue.cpp): the deque of
stored elements, the `maxsize` field and the `unfinished_tasks` counter
(a `boost::uint64_t`, incremented modulo `2 ^ 64`). -/
structure PyQueue where
  queue : List Nat
  maxsize : Nat
  unfinished_tasks : Nat
deriving DecidableEq

/-- `Queue_init` (boost_queue.cpp): a negative `maxsize` argument is
clamped to 0; the queue starts empty with a zero counter. -/
def Queue_init (maxsize : Int) : PyQueue :=
  { queue := [], maxsize := if maxsize < 0 then 0 else maxsize.toNat,
    unfinished_tasks := 0 }

/-- `Queue_qsize` (boost_queue.cpp): `self->bridge->queue.size()`. -/
def Queue_qsize (s : PyQueue) : Nat := s.queue.length

/-- `static_cast<double>(std::numeric_limits<time_t>::max())`: the 64-bit
`time_t` maximum `2 ^ 63 - 1` rounds to `2 ^ 63` as a double. -/
def time_t_max_as_double : ℚ := 9223372036854775808

/-- `_parse_block_and_timeout` (boost_queue.cpp).  `py_block = none` models
a `NULL` (absent) argument, `some b` an argument of truthiness `b`;
`py_timeout = none` models an absent or `None` timeout, `some t` a float of
value `t` (only its sign, zero test and magnitude are used by the code).
A present timeout must be non-negative and at most `time_t` max; an
explicit timeout of 0 forces `block = false`. -/
def parse_block_and_timeout (py_block : Option Bool) (py_timeout : Option ℚ) :
    Except Err (Bool × ℚ) :=
  let block := match py_block with
    | some b => b
    | none => true
  match py_timeout with
  | none => .ok (block, 0)
  | some t =>
      if t < 0 then .error .valueError
      else if time_t_max_as_double < t then .error .overflowError
      else if t = 0 then .ok (false, 0)
      else .ok (block, t)

/-- `_wait_for_free_slots` (boost_queue.cpp): succeeds at once when the
queue is unbounded or `maxsize - queue.size() >= nb_of_items` (in `size_t`
arithmetic); otherwise raises Full when non-blocking, times out into Full
when a positive timeout was given, and waits indefinitely otherwise. -/
def wait_for_free_slots (maxsize qlen : Nat) (block : Bool) (timeout : ℚ)
    (nb_of_items : Nat) : Outcome Unit :=
  if maxsize = 0 then .ok ()
  else if nb_of_items ≤ usub maxsize qlen then .ok ()
  else if ¬ block then .fail .full
  else if 0 < timeout then .timeoutFail .full
  else .waitForever

/-- `_wait_for_items` (boost_queue.cpp): succeeds at once when
`queue.size() >= items_len`; otherwise raises Empty when non-blocking,
times out into Empty when a positive timeout was given, and waits
indefinitely otherwise. -/
def wait_for_items (qlen : Nat) (block : Bool) (timeout : ℚ)
    (items_len : Nat) : Outcome Unit :=
  if items_len ≤ qlen then .ok ()
  else if ¬ block then .fail .empty
  else if 0 < timeout then .timeoutFail .empty
  else .waitForever

/-- `_internal_put` (boost_queue.cpp): wait for one free slot, then append
the item and increment `unfinished_tasks`. -/
def internal_put (s : PyQueue) (item : Nat) (block : Bool) (timeout : ℚ) :
    Outcome Unit × PyQueue :=
  match wait_for_free_slots s.maxsize s.queue.length block timeout 1 with
  | .ok _ => (.ok (), { s with queue := s.queue ++ [item],
                               unfinished_tasks := (s.unfinished_tasks + 1) % W64 })
  | o => (o, s)

/-- `Queue_put` (boost_queue.cpp): parse `block` / `timeout`, then
`_internal_put`. -/
def Queue_put (s : PyQueue) (item : Nat) (py_block : Option Bool)
    (py_timeout : Option ℚ) : Outcome Unit × PyQueue :=
  match parse_block_and_timeout py_block py_timeout with
  | .error e => (.fail e, s)
  | .ok (block, timeout) => internal_put s item block timeout

/-- `Queue_put_nowait` (boost_queue.cpp). -/
def Queue_put_nowait (s : PyQueue) (item : Nat) : Outcome Unit × PyQueue :=
  internal_put s item false 0

/-- The behaviour of a Python iterable argument of `Queue_put_many`:
`reportedLen` is what `PyObject_Length` returns (`-1` = it raised),
`hasIter` is whether `PyObject_GetIter` succeeds, `yields` the items the
iterator produces in order, and `raisesDuring` whether `PyIter_Next`
raises after the last yielded item instead of ending cleanly. -/
structure PyIterable where
  reportedLen : Int
  hasIter : Bool
  yields : List Nat
  raisesDuring : Bool
deriving DecidableEq

/-- A well-behaved collection (e.g. a Python list): its length is its
number of items and iteration yields exactly those items. -/
def PyIterable.ofList (l : List Nat) : PyIterable :=
  { reportedLen := l.length, hasIter := true, yields := l, raisesDuring := false }

/-- `Queue_put_many` (boost_queue.cpp), with the source's branch order:
parse `block` / `timeout`; take `len(items)` (error, empty and negative
cases); reject a batch larger than a positive `maxsize`; wait for
`items_len` free slots; then obtain the iterator and push every yielded
item, incrementing `unfinished_tasks` once per item.  If the iterator
raises during the loop the already-pushed items remain in the queue. -/
def Queue_put_many (s : PyQueue) (items : PyIterable) (py_block : Option Bool)
    (py_timeout : Option ℚ) : Outcome Unit × PyQueue :=
  match parse_block_and_timeout py_block py_timeout with
  | .error e => (.fail e, s)
  | .ok (block, timeout) =>
      let items_len := items.reportedLen
      if items_len = -1 then (.fail .lenRaised, s)
      else if items_len = 0 then (.ok (), s)
      else if items_len < 0 then (.fail .valueError, s)
      else if 0 < s.maxsize ∧ s.maxsize < items_len.toNat then (.fail .valueError, s)
      else
        match wait_for_free_slots s.maxsize s.queue.length block timeout items_len.toNat with
        | .ok _ =>
            if ¬ items.hasIter then (.fail .notIterable, s)
            else
              let s1 := { s with queue := s.queue ++ items.yields,
                                 unfinished_tasks :=
                                   (s.unfinished_tasks + items.yields.length) % W64 }
              if items.raisesDuring then (.fail .iterRaised, s1) else (.ok (), s1)
        | .fail e => (.fail e, s)
        | .timeoutFail e => (.timeoutFail e, s)
        | .waitForever => (.waitForever, s)

/-- `_internal_get` (boost_queue.cpp): wait for one item, then pop and
return the front of the deque. -/
def internal_get (s : PyQueue) (block : Bool) (timeout : ℚ) :
    Outcome Nat × PyQueue :=
  match wait_for_items s.queue.length block timeout 1 with
  | .ok _ => (.ok s.queue.headI, { s with queue := s.queue.tail })
  | .fail e => (.fail e, s)
  | .timeoutFail e => (.timeoutFail e, s)
  | .waitForever => (.waitForever, s)

/-- `Queue_get` (boost_queue.cpp). -/
def Queue_get (s : PyQueue) (py_block : Option Bool) (py_timeout : Option ℚ) :
    Outcome Nat × PyQueue :=
  match parse_block_and_timeout py_block py_timeout with
  | .error e => (.fail e, s)
  | .ok (block, timeout) => internal_get s block timeout

/-- `Queue_get_nowait` (boost_queue.cpp). -/
def Queue_get_nowait (s : PyQueue) : Outcome Nat × PyQueue :=
  internal_get s false 0

/-- `Queue_get_many` (boost_queue.cpp), with the source's branch order:
parse `block` / `timeout`; `items == 0` returns an empty tuple at once;
negative `items` is a `ValueError`; `items` larger than a positive
`maxsize` is a `ValueError`; wait for `items` elements; then pop the
first `items` elements of the deque in order. -/
def Queue_get_many (s : PyQueue) (items : Int) (py_block : Option Bool)
    (py_timeout : Option ℚ) : Outcome (List Nat) × PyQueue :=
  match parse_block_and_timeout py_block py_timeout with
  | .error e => (.fail e, s)
  | .ok (block, timeout) =>
      if items = 0 then (.ok [], s)
      else if items < 0 then (.fail .valueError, s)
      else if 0 < s.maxsize ∧ s.maxsize < items.toNat then (.fail .valueError, s)
      else
        match wait_for_items s.queue.length block timeout items.toNat with
        | .ok _ => (.ok (s.queue.take items.toNat), { s with queue := s.queue.drop items.toNat })
        | .fail e => (.fail e, s)
        | .timeoutFail e => (.timeoutFail e, s)
        | .waitForever => (.waitForever, s)

/-- `Queue_task_done` (boost_queue.cpp): `ValueError` when
`unfinished_tasks` is already zero, else decrement; the returned `Bool`
records whether `all_tasks_done_cond.notify_all()` was called, which
happens exactly when the decremented counter is zero. -/
def Queue_task_done (s : PyQueue) : Outcome Unit × PyQueue × Bool :=
  if s.unfinished_tasks = 0 then (.fail .valueError, s, false)
  else
    let u := s.unfinished_tasks - 1
    (.ok (), { s with unfinished_tasks := u }, u = 0)

/-- `Queue_join` (boost_queue.cpp): `while (unfinished_tasks) wait;` —
returns at once when the counter is zero, otherwise enters an untimed
wait. -/
def Queue_join (s : PyQueue) : Outcome Unit :=
  if s.unfinished_tasks = 0 then .ok () else .waitForever

/-- The wait loop of `join`, run against the sequence of counter values the
thread observes: its value at entry, then the value after each wake (set by
concurrent `task_done` calls).  Returns `some n` when the loop exits after
`n` waits, `none` when every observation is exhausted without the counter
reaching zero. -/
def joinRun : Nat → List Nat → Option Nat
  | 0, _ => some 0
  | _ + 1, [] => none
  | _ + 1, w :: ws => (joinRun w ws).map (· + 1)

/-- State of the C++ `ConcurrentQueue<T>` (concurrent_queue.hpp). -/
structure CQ where
  queue : List Nat
  maxsize : Nat
  unfinished_tasks : Nat
deriving DecidableEq

/-- `ConcurrentQueue::ConcurrentQueue` (concurrent_queue.hpp): a negative
`maxsize` is clamped to 0. -/
def CQ.init (maxsize : Int) : CQ :=
  { queue := [], maxsize := if maxsize < 0 then 0 else maxsize.toNat,
    unfinished_tasks := 0 }

/-- `ConcurrentQueue::put` (concurrent_queue.hpp).  Note: with
`block = true` and `timeout = 0` the code takes the untimed
`full_cond.wait` branch. -/
def CQ.put (s : CQ) (item : Nat) (block : Bool) (timeout : Nat) :
    Outcome Unit × CQ :=
  if s.queue.length < s.maxsize ∨ s.maxsize = 0 then
    (.ok (), { s with queue := s.queue ++ [item],
                      unfinished_tasks := (s.unfinished_tasks + 1) % W64 })
  else if ¬ block then (.fail .full, s)
  else if 0 < timeout then (.timeoutFail .full, s)
  else (.waitForever, s)

/-- `ConcurrentQueue::pop` (concurrent_queue.hpp). -/
def CQ.pop (s : CQ) (block : Bool) (timeout : Nat) : Outcome Nat × CQ :=
  if ¬ s.queue.isEmpty then
    (.ok s.queue.headI, { s with queue := s.queue.tail })
  else if ¬ block then (.fail .empty, s)
  else if 0 < timeout then (.timeoutFail .empty, s)
  else (.waitForever, s)

/-- `ConcurrentQueue::task_done` (concurrent_queue.hpp). -/
def CQ.task_done (s : CQ) : Outcome Unit × CQ × Bool :=
  if s.unfinished_tasks = 0 then (.fail .noMoreTasks, s, false)
  else
    let u := s.unfinished_tasks - 1
    (.ok (), { s with unfinished_tasks := u }, u = 0)

/-- `ConcurrentQueue::join` (concurrent_queue.hpp). -/
def CQ.join (s : CQ) : Outcome Unit :=
  if s.unfinished_tasks = 0 then .ok () else .waitForever

/-- A call to one public mutating operation of the Python queue, with
`put_many` applied to a well-behaved collection (a list). -/
inductive Op
  | put (item : Nat) (py_block : Option Bool) (py_timeout : Option ℚ)
  | put_nowait (item : Nat)
  | put_many (items : List Nat) (py_block : Option Bool) (py_timeout : Option ℚ)
  | get (py_block : Option Bool) (py_timeout : Option ℚ)
  | get_nowait
  | get_many (items : Int) (py_block : Option Bool) (py_timeout : Option ℚ)
  | task_done
  | join
deriving DecidableEq

/-- What one operation did: the items it appended to the queue, the items
it removed, and whether it was a successful `task_done`. -/
structure StepLog where
  inserted : List Nat
  removed : List Nat
  completed : Nat
deriving DecidableEq

/-- Apply one operation to a queue state, recording its effect.  A call
whose outcome is not `ok` contributes an empty log entry (its state is
still threaded through). -/
def applyOp (s : PyQueue) : Op → StepLog × PyQueue
  | .put x pb pt =>
      match Queue_put s x pb pt with
      | (.ok _, s1) => ({ inserted := [x], removed := [], completed := 0 }, s1)
      | (_, s1) => ({ inserted := [], removed := [], completed := 0 }, s1)
  | .put_nowait x =>
      match Queue_put_nowait s x with
      | (.ok _, s1) => ({ inserted := [x], removed := [], completed := 0 }, s1)
      | (_, s1) => ({ inserted := [], removed := [], completed := 0 }, s1)
  | .put_many l pb pt =>
      match Queue_put_many s (.ofList l) pb pt with
      | (.ok _, s1) => ({ inserted := l, removed := [], completed := 0 }, s1)
      | (_, s1) => ({ inserted := [], removed := [], completed := 0 }, s1)
  | .get pb pt =>
      match Queue_get s pb pt with
      | (.ok x, s1) => ({ inserted := [], removed := [x], completed := 0 }, s1)
      | (_, s1) => ({ inserted := [], removed := [], completed := 0 }, s1)
  | .get_nowait =>
      match Queue_get_nowait s with
      | (.ok x, s1) => ({ inserted := [], removed := [x], completed := 0 }, s1)
      | (_, s1) => ({ inserted := [], removed := [], completed := 0 }, s1)
  | .get_many n pb pt =>
      match Queue_get_many s n pb pt with
      | (.ok l, s1) => ({ inserted := [], removed := l, completed := 0 }, s1)
      | (_, s1) => ({ inserted := [], removed := [], completed := 0 }, s1)
  | .task_done =>
      match Queue_task_done s with
      | (.ok _, s1, _) => ({ inserted := [], removed := [], completed := 1 }, s1)
      | (_, s1, _) => ({ inserted := [], removed := [], completed := 0 }, s1)
  | .join => ({ inserted := [], removed := [], completed := 0 }, s)

/-- Run a sequence of operations, collecting the per-step logs. -/
def runOps : List Op → PyQueue → List StepLog × PyQueue
  | [], s => ([], s)
  | op :: ops, s =>
      let r := applyOp s op
      let rest := runOps ops r.2
      (r.1 :: rest.1, rest.2)

/-- All items inserted by a run, in order. -/
def insertedAll (ls : List StepLog) : List Nat := (ls.map StepLog.inserted).flatten

/-- All items removed by a run, in order. -/
def removedAll (ls : List StepLog) : List Nat := (ls.map StepLog.removed).flatten

/-- Number of successful `task_done` calls in a run. -/
def completedCount (ls : List StepLog) : Nat := (ls.map StepLog.completed).sum

/-! ### Characterization lemmas for the single operations -/

theorem W64_eq : W64 = 18446744073709551616 := by norm_num [W64]

theorem usub_eq_sub (a b : Nat) (hba : b ≤ a) (ha : a < W64) : usub a b = a - b := by
  unfold usub
  rw [W64_eq] at ha ⊢
  omega

theorem wait_for_free_slots_ok_iff (m q : Nat) (b : Bool) (t : ℚ) (n : Nat) :
    wait_for_free_slots m q b t n = .ok () ↔ (m = 0 ∨ n ≤ usub m q) := by
  unfold wait_for_free_slots
  split_ifs with h1 h2 h3 h4 <;> simp_all

theorem wait_for_items_ok_iff (q : Nat) (b : Bool) (t : ℚ) (n : Nat) :
    wait_for_items q b t n = .ok () ↔ n ≤ q := by
  unfold wait_for_items
  split_ifs with h1 h2 h3 <;> simp_all

theorem parse_error_kind (pb : Option Bool) (pt : Option ℚ) (e : Err)
    (h : parse_block_and_timeout pb pt = .error e) :
    e = .valueError ∨ e = .overflowError := by
  cases pt with
  | none => simp [parse_block_and_timeout] at h
  | some t =>
      simp only [parse_block_and_timeout] at h
      split_ifs at h <;> simp_all

theorem internal_put_spec (s : PyQueue) (x : Nat) (b : Bool) (t : ℚ) :
    (internal_put s x b t
        = (.ok (), { s with queue := s.queue ++ [x],
                            unfinished_tasks := (s.unfinished_tasks + 1) % W64 })
      ∧ (s.maxsize = 0 ∨ 1 ≤ usub s.maxsize s.queue.length))
    ∨ ((internal_put s x b t).2 = s ∧ ∀ u, (internal_put s x b t).1 ≠ .ok u) := by
  unfold internal_put
  cases h : wait_for_free_slots s.maxsize s.queue.length b t 1 with
  | ok u =>
      left
      refine ⟨rfl, ?_⟩
      exact (wait_for_free_slots_ok_iff _ _ _ _ _).mp (by cases u; exact h)
  | fail e => right; exact ⟨rfl, by simp⟩
  | timeoutFail e => right; exact ⟨rfl, by simp⟩
  | waitForever => right; exact ⟨rfl, by simp⟩

theorem Queue_put_spec (s : PyQueue) (x : Nat) (pb : Option Bool) (pt : Option ℚ) :
    (Queue_put s x pb pt
        = (.ok (), { s with queue := s.queue ++ [x],
                            unfinished_tasks := (s.unfinished_tasks + 1) % W64 })
      ∧ (s.maxsize = 0 ∨ 1 ≤ usub s.maxsize s.queue.length))
    ∨ ((Queue_put s x pb pt).2 = s ∧ ∀ u, (Queue_put s x pb pt).1 ≠ .ok u) := by
  unfold Queue_put
  cases h : parse_block_and_timeout pb pt with
  | error e => right; exact ⟨rfl, by simp⟩
  | ok bt => obtain ⟨b, t⟩ := bt; exact internal_put_spec s x b t

theorem internal_get_spec (s : PyQueue) (b : Bool) (t : ℚ) :
    (s.queue ≠ [] ∧ internal_get s b t = (.ok s.queue.headI, { s with queue := s.queue.tail }))
    ∨ ((internal_get s b t).2 = s ∧ ∀ x, (internal_get s b t).1 ≠ .ok x) := by
  unfold internal_get
  cases h : wait_for_items s.queue.length b t 1 with
  | ok u =>
      left
      have h1 : 1 ≤ s.queue.length := (wait_for_items_ok_iff _ _ _ _).mp (by cases u; exact h)
      exact ⟨List.length_pos.mp h1, rfl⟩
  | fail e => right; exact ⟨rfl, by simp⟩
  | timeoutFail e => right; exact ⟨rfl, by simp⟩
  | waitForever => right; exact ⟨rfl, by simp⟩

theorem Queue_get_spec (s : PyQueue) (pb : Option Bool) (pt : Option ℚ) :
    (s.queue ≠ [] ∧ Queue_get s pb pt = (.ok s.queue.headI, { s with queue := s.queue.tail }))
    ∨ ((Queue_get s pb pt).2 = s ∧ ∀ x, (Queue_get s pb pt).1 ≠ .ok x) := by
  unfold Queue_get
  cases h : parse_block_and_timeout pb pt with
  | error e => right; exact ⟨rfl, by simp⟩
  | ok bt => obtain ⟨b, t⟩ := bt; exact internal_get_spec s b t

theorem Queue_get_many_spec (s : PyQueue) (n : Int) (pb : Option Bool) (pt : Option ℚ) :
    (Queue_get_many s n pb pt
        = (.ok (s.queue.take n.toNat), { s with queue := s.queue.drop n.toNat })
      ∧ n.toNat ≤ s.queue.length)
    ∨ ((Queue_get_many s n pb pt).2 = s ∧ ∀ l, (Queue_get_many s n pb pt).1 ≠ .ok l) := by
  unfold Queue_get_many
  cases hp : parse_block_and_timeout pb pt with
  | error e => right; exact ⟨rfl, by simp⟩
  | ok bt =>
      obtain ⟨b, t⟩ := bt
      dsimp only
      by_cases h0 : n = 0
      · subst h0
        simp only [if_pos rfl]
        left
        exact ⟨rfl, by simp⟩
      · rw [if_neg h0]
        by_cases hneg : n < 0
        · rw [if_pos hneg]; right; exact ⟨rfl, by simp⟩
        · rw [if_neg hneg]
          by_cases hms : 0 < s.maxsize ∧ s.maxsize < n.toNat
          · rw [if_pos hms]; right; exact ⟨rfl, by simp⟩
          · rw [if_neg hms]
            cases h : wait_for_items s.queue.length b t n.toNat with
            | ok u =>
                left
                refine ⟨rfl, ?_⟩
                exact (wait_for_items_ok_iff _ _ _ _).mp (by cases u; exact h)
            | fail e => right; exact ⟨rfl, by simp⟩
            | timeoutFail e => right; exact ⟨rfl, by simp⟩
            | waitForever => right; exact ⟨rfl, by simp⟩

theorem Queue_put_many_ofList_spec (s : PyQueue) (l : List Nat) (pb : Option Bool)
    (pt : Option ℚ) :
    (Queue_put_many s (.ofList l) pb pt
        = (.ok (), { s with queue := s.queue ++ l,
                            unfinished_tasks := (s.unfinished_tasks + l.length) % W64 })
      ∧ (s.maxsize = 0 ∨ l.length ≤ usub s.maxsize s.queue.length))
    ∨ (l = [] ∧ Queue_put_many s (.ofList l) pb pt = (.ok (), s))
    ∨ ((Queue_put_many s (.ofList l) pb pt).2 = s
        ∧ ∀ u, (Queue_put_many s (.ofList l) pb pt).1 ≠ .ok u) := by
  unfold Queue_put_many PyIterable.ofList
  cases hp : parse_block_and_timeout pb pt with
  | error e => right; right; exact ⟨rfl, by simp⟩
  | ok bt =>
      obtain ⟨b, t⟩ := bt
      dsimp only
      rw [if_neg (by omega : ¬ ((l.length : Int) = -1))]
      by_cases h0 : l = []
      · subst h0
        rw [if_pos (by simp)]
        right; left; exact ⟨rfl, rfl⟩
      · have hlen : 0 < l.length := List.length_pos.mpr h0
        rw [if_neg (by omega : ¬ ((l.length : Int) = 0)),
            if_neg (by omega : ¬ ((l.length : Int) < 0))]
        by_cases hms : 0 < s.maxsize ∧ s.maxsize < ((l.length : Int)).toNat
        · rw [if_pos hms]; right; right; exact ⟨rfl, by simp⟩
        · rw [if_neg hms]
          cases h : wait_for_free_slots s.maxsize s.queue.length b t ((l.length : Int)).toNat with
          | ok u =>
              left
              have hg := (wait_for_free_slots_ok_iff _ _ _ _ _).mp (by cases u; exact h)
              simp only [Int.toNat_natCast] at hg ⊢
              exact ⟨by simp, hg⟩
          | fail e => right; right; exact ⟨rfl, by simp⟩
          | timeoutFail e => right; right; exact ⟨rfl, by simp⟩
          | waitForever => right; right; exact ⟨rfl, by simp⟩

theorem Queue_task_done_spec (s : PyQueue) :
    (s.unfinished_tasks = 0 ∧ Queue_task_done s = (.fail .valueError, s, false))
    ∨ (s.unfinished_tasks ≠ 0
        ∧ Queue_task_done s
            = (.ok (), { s with unfinished_tasks := s.unfinished_tasks - 1 },
               decide (s.unfinished_tasks - 1 = 0))) := by
  unfold Queue_task_done
  by_cases h : s.unfinished_tasks = 0
  · left; exact ⟨h, by rw [if_pos h]⟩
  · right; exact ⟨h, by rw [if_neg h]⟩

/-! ### One step of the operation machine -/

theorem headI_cons_tail (q : List Nat) (hq : q ≠ []) : q.headI :: q.tail = q := by
  cases q with
  | nil => exact absurd rfl hq
  | cons a as => rfl

theorem applyOp_spec (s : PyQueue) (op : Op) :
    (applyOp s op).1.removed ++ ((applyOp s op).2).queue = s.queue ++ (applyOp s op).1.inserted
    ∧ ((applyOp s op).2).maxsize = s.maxsize
    ∧ (s.unfinished_tasks + (applyOp s op).1.inserted.length < W64 →
        ((applyOp s op).2).unfinished_tasks + (applyOp s op).1.completed
          = s.unfinished_tasks + (applyOp s op).1.inserted.length)
    ∧ (0 < s.maxsize → s.maxsize < W64 → s.queue.length ≤ s.maxsize →
        ((applyOp s op).2).queue.length ≤ s.maxsize) := by
  cases op with
  | put x pb pt =>
      rcases Queue_put_spec s x pb pt with ⟨hEq, hg⟩ | ⟨hsnd, hne⟩
      · simp only [applyOp, hEq]
        refine ⟨by simp, by trivial, ?_, ?_⟩
        · intro hlt
          simp only [List.length_singleton] at hlt ⊢
          simp only [Nat.add_zero]
          exact Nat.mod_eq_of_lt hlt
        · intro hm hw hq
          rcases hg with h0 | h1
          · omega
          · rw [usub_eq_sub _ _ hq hw] at h1
            simp only [List.length_append, List.length_singleton]
            omega
      · have hAll : applyOp s (.put x pb pt)
            = ({ inserted := [], removed := [], completed := 0 }, s) := by
          simp only [applyOp]
          rcases hq : Queue_put s x pb pt with ⟨r, s1⟩
          rw [hq] at hsnd hne
          cases r <;> simp_all
        rw [hAll]
        exact ⟨by simp, by trivial, by simp, fun _ _ h3 => h3⟩
  | put_nowait x =>
      rcases internal_put_spec s x false 0 with ⟨hEq, hg⟩ | ⟨hsnd, hne⟩
      · simp only [applyOp, Queue_put_nowait, hEq]
        refine ⟨by simp, by trivial, ?_, ?_⟩
        · intro hlt
          simp only [List.length_singleton] at hlt ⊢
          simp only [Nat.add_zero]
          exact Nat.mod_eq_of_lt hlt
        · intro hm hw hq
          rcases hg with h0 | h1
          · omega
          · rw [usub_eq_sub _ _ hq hw] at h1
            simp only [List.length_append, List.length_singleton]
            omega
      · have hAll : applyOp s (.put_nowait x)
            = ({ inserted := [], removed := [], completed := 0 }, s) := by
          simp only [applyOp, Queue_put_nowait]
          rcases hq : internal_put s x false 0 with ⟨r, s1⟩
          rw [hq] at hsnd hne
          cases r <;> simp_all
        rw [hAll]
        exact ⟨by simp, by trivial, by simp, fun _ _ h3 => h3⟩
  | put_many l pb pt =>
      rcases Queue_put_many_ofList_spec s l pb pt with ⟨hEq, hg⟩ | ⟨hnil, hEq⟩ | ⟨hsnd, hne⟩
      · simp only [applyOp, hEq]
        refine ⟨by simp, by trivial, ?_, ?_⟩
        · intro hlt
          simp only [Nat.add_zero]
          exact Nat.mod_eq_of_lt hlt
        · intro hm hw hq
          rcases hg with h0 | h1
          · omega
          · rw [usub_eq_sub _ _ hq hw] at h1
            simp only [List.length_append]
            omega
      · subst hnil
        simp only [applyOp, hEq]
        exact ⟨by simp, by trivial, by simp, fun _ _ h3 => h3⟩
      · have hAll : applyOp s (.put_many l pb pt)
            = ({ inserted := [], removed := [], completed := 0 }, s) := by
          simp only [applyOp]
          rcases hq : Queue_put_many s (.ofList l) pb pt with ⟨r, s1⟩
          rw [hq] at hsnd hne
          cases r <;> simp_all
        rw [hAll]
        exact ⟨by simp, by trivial, by simp, fun _ _ h3 => h3⟩
  | get pb pt =>
      rcases Queue_get_spec s pb pt with ⟨hq0, hEq⟩ | ⟨hsnd, hne⟩
      · simp only [applyOp, hEq]
        refine ⟨?_, by trivial, by simp, ?_⟩
        · simp only [List.append_nil, List.cons_append, List.nil_append]
          exact headI_cons_tail s.queue hq0
        · intro hm hw hq
          simp only [List.length_tail]
          omega
      · have hAll : applyOp s (.get pb pt)
            = ({ inserted := [], removed := [], completed := 0 }, s) := by
          simp only [applyOp]
          rcases hq : Queue_get s pb pt with ⟨r, s1⟩
          rw [hq] at hsnd hne
          cases r <;> simp_all
        rw [hAll]
        exact ⟨by simp, by trivial, by simp, fun _ _ h3 => h3⟩
  | get_nowait =>
      rcases internal_get_spec s false 0 with ⟨hq0, hEq⟩ | ⟨hsnd, hne⟩
      · simp only [applyOp, Queue_get_nowait, hEq]
        refine ⟨?_, by trivial, by simp, ?_⟩
        · simp only [List.append_nil, List.cons_append, List.nil_append]
          exact headI_cons_tail s.queue hq0
        · intro hm hw hq
          simp only [List.length_tail]
          omega
      · have hAll : applyOp s .get_nowait
            = ({ inserted := [], removed := [], completed := 0 }, s) := by
          simp only [applyOp, Queue_get_nowait]
          rcases hq : internal_get s false 0 with ⟨r, s1⟩
          rw [hq] at hsnd hne
          cases r <;> simp_all
        rw [hAll]
        exact ⟨by simp, by trivial, by simp, fun _ _ h3 => h3⟩
  | get_many n pb pt =>
      rcases Queue_get_many_spec s n pb pt with ⟨hEq, hle⟩ | ⟨hsnd, hne⟩
      · simp only [applyOp, hEq]
        refine ⟨by simp [List.take_append_drop], by trivial, by simp, ?_⟩
        · intro hm hw hq
          simp only [List.length_drop]
          omega
      · have hAll : applyOp s (.get_many n pb pt)
            = ({ inserted := [], removed := [], completed := 0 }, s) := by
          simp only [applyOp]
          rcases hq : Queue_get_many s n pb pt with ⟨r, s1⟩
          rw [hq] at hsnd hne
          cases r <;> simp_all
        rw [hAll]
        exact ⟨by simp, by trivial, by simp, fun _ _ h3 => h3⟩
  | task_done =>
      rcases Queue_task_done_spec s with ⟨h0, hEq⟩ | ⟨h0, hEq⟩
      · simp only [applyOp, hEq]
        exact ⟨by simp, by trivial, by simp, fun _ _ h3 => h3⟩
      · simp only [applyOp, hEq]
        refine ⟨by simp, by trivial, ?_, fun _ _ h3 => h3⟩
        · intro hlt
          simp only [List.length_nil, Nat.add_zero] at hlt ⊢
          omega
  | join =>
      simp only [applyOp]
      exact ⟨by simp, by trivial, by simp, fun _ _ h3 => h3⟩

/-! ### Whole runs -/

theorem insertedAll_cons (a : StepLog) (ls : List StepLog) :
    insertedAll (a :: ls) = a.inserted ++ insertedAll ls := by
  simp [insertedAll]

theorem removedAll_cons (a : StepLog) (ls : List StepLog) :
    removedAll (a :: ls) = a.removed ++ removedAll ls := by
  simp [removedAll]

theorem completedCount_cons (a : StepLog) (ls : List StepLog) :
    completedCount (a :: ls) = a.completed + completedCount ls := by
  simp [completedCount]

theorem runOps_cons (op : Op) (ops : List Op) (s : PyQueue) :
    runOps (op :: ops) s
      = ((applyOp s op).1 :: (runOps ops (applyOp s op).2).1,
         (runOps ops (applyOp s op).2).2) := rfl

theorem runOps_spec (ops : List Op) : ∀ s : PyQueue,
    removedAll (runOps ops s).1 ++ (runOps ops s).2.queue
        = s.queue ++ insertedAll (runOps ops s).1
    ∧ (runOps ops s).2.maxsize = s.maxsize
    ∧ (s.unfinished_tasks + (insertedAll (runOps ops s).1).length < W64 →
        (runOps ops s).2.unfinished_tasks + completedCount (runOps ops s).1
          = s.unfinished_tasks + (insertedAll (runOps ops s).1).length)
    ∧ (0 < s.maxsize → s.maxsize < W64 → s.queue.length ≤ s.maxsize →
        (runOps ops s).2.queue.length ≤ s.maxsize) := by
  induction ops with
  | nil =>
      intro s
      refine ⟨by simp [runOps, removedAll, insertedAll], rfl, ?_, fun _ _ h => h⟩
      intro h
      simp [runOps, insertedAll, completedCount]
  | cons op ops ih =>
      intro s
      obtain ⟨h1, h2, h3, h4⟩ := applyOp_spec s op
      obtain ⟨g1, g2, g3, g4⟩ := ih (applyOp s op).2
      rw [runOps_cons]
      dsimp only
      rw [insertedAll_cons, removedAll_cons, completedCount_cons]
      refine ⟨?_, g2.trans h2, ?_, ?_⟩
      · rw [List.append_assoc, g1, ← List.append_assoc, h1, List.append_assoc]
      · intro hlt
        rw [List.length_append] at hlt ⊢
        have h3a := h3 (by omega)
        have g3a := g3 (by omega)
        omega
      · intro hm hw hq
        have hq1 : (applyOp s op).2.queue.length ≤ (applyOp s op).2.maxsize := by
          rw [h2]; exact h4 hm hw hq
        have hfin := g4 (by rw [h2]; exact hm) (by rw [h2]; exact hw) hq1
        rw [h2] at hfin
        exact hfin

/-! ### The join wait loop -/

theorem joinRun_first_zero (wakes : List Nat) : ∀ u n : Nat,
    joinRun u wakes = some n →
    (u :: wakes).get? n = some 0 ∧ ∀ i, i < n → (u :: wakes).get? i ≠ some 0 := by
  induction wakes with
  | nil =>
      intro u n h
      cases u with
      | zero =>
          simp only [joinRun, Option.some.injEq] at h
          subst h
          exact ⟨rfl, fun i hi => absurd hi (by omega)⟩
      | succ v => simp [joinRun] at h
  | cons w ws ih =>
      intro u n h
      cases u with
      | zero =>
          simp only [joinRun, Option.some.injEq] at h
          subst h
          exact ⟨rfl, fun i hi => absurd hi (by omega)⟩
      | succ v =>
          simp only [joinRun, Option.map_eq_some'] at h
          obtain ⟨m, hm, hn⟩ := h
          subst hn
          obtain ⟨hz, hpre⟩ := ih w m hm
          refine ⟨hz, ?_⟩
          intro i hi
          cases i with
          | zero => simp
          | succ j =>
              have hj : j < m := by omega
              simpa using hpre j hj

/-! ### Case analysis of Queue_put_many on an arbitrary iterable -/

theorem Queue_put_many_cases (s : PyQueue) (items : PyIterable) (pb : Option Bool)
    (pt : Option ℚ) :
    ((Queue_put_many s items pb pt).2 = s
      ∧ ∀ e, ((Queue_put_many s items pb pt).1 = .fail e
              ∨ (Queue_put_many s items pb pt).1 = .timeoutFail e) → e ≠ .iterRaised)
    ∨ ((Queue_put_many s items pb pt).2
          = { s with queue := s.queue ++ items.yields,
                     unfinished_tasks := (s.unfinished_tasks + items.yields.length) % W64 }
      ∧ ((Queue_put_many s items pb pt).1 = .ok ()
          ∨ (items.raisesDuring = true
             ∧ (Queue_put_many s items pb pt).1 = .fail .iterRaised))) := by
  unfold Queue_put_many
  cases hp : parse_block_and_timeout pb pt with
  | error e0 =>
      left
      refine ⟨rfl, ?_⟩
      intro e he
      have hk := parse_error_kind pb pt e0 hp
      rcases he with he | he
      · simp only [Outcome.fail.injEq] at he
        subst he
        rcases hk with h | h <;> simp [h]
      · simp at he
  | ok bt =>
      obtain ⟨b, t⟩ := bt
      dsimp only
      by_cases hm1 : items.reportedLen = -1
      · rw [if_pos hm1]
        left
        exact ⟨rfl, fun e he => by
          rcases he with he | he
          · simp only [Outcome.fail.injEq] at he; subst he; simp
          · simp at he⟩
      · rw [if_neg hm1]
        by_cases hz : items.reportedLen = 0
        · rw [if_pos hz]
          left
          exact ⟨rfl, fun e he => by rcases he with he | he <;> simp at he⟩
        · rw [if_neg hz]
          by_cases hneg : items.reportedLen < 0
          · rw [if_pos hneg]
            left
            exact ⟨rfl, fun e he => by
              rcases he with he | he
              · simp only [Outcome.fail.injEq] at he; subst he; simp
              · simp at he⟩
          · rw [if_neg hneg]
            by_cases hms : 0 < s.maxsize ∧ s.maxsize < items.reportedLen.toNat
            · rw [if_pos hms]
              left
              exact ⟨rfl, fun e he => by
                rcases he with he | he
                · simp only [Outcome.fail.injEq] at he; subst he; simp
                · simp at he⟩
            · rw [if_neg hms]
              cases hw : wait_for_free_slots s.maxsize s.queue.length b t
                  items.reportedLen.toNat with
              | ok u =>
                  by_cases hit : items.hasIter
                  · rw [if_neg (by simpa using hit)]
                    by_cases hr : items.raisesDuring
                    · rw [if_pos hr]
                      right
                      exact ⟨rfl, Or.inr ⟨hr, rfl⟩⟩
                    · rw [if_neg hr]
                      right
                      exact ⟨rfl, Or.inl rfl⟩
                  · rw [if_pos (by simpa using hit)]
                    left
                    exact ⟨rfl, fun e he => by
                      rcases he with he | he
                      · simp only [Outcome.fail.injEq] at he; subst he; simp
                      · simp at he⟩
              | fail e1 =>
                  left
                  refine ⟨rfl, ?_⟩
                  intro e he
                  have he1 : e1 = .full ∨ e1 = .empty := by
                    unfold wait_for_free_slots at hw
                    split_ifs at hw
                    all_goals simp_all
                  rcases he with he | he
                  · simp only [Outcome.fail.injEq] at he
                    subst he
                    rcases he1 with h | h <;> simp [h]
                  · simp at he
              | timeoutFail e1 =>
                  left
                  refine ⟨rfl, ?_⟩
                  intro e he
                  have he1 : e1 = .full ∨ e1 = .empty := by
                    unfold wait_for_free_slots at hw
                    split_ifs at hw
                    all_goals simp_all
                  rcases he with he | he
                  · simp at he
                  · simp only [Outcome.timeoutFail.injEq] at he
                    subst he
                    rcases he1 with h | h <;> simp [h]
              | waitForever =>
                  left
                  exact ⟨rfl, fun e he => by rcases he with he | he <;> simp at he⟩

/-! ### Claim theorems -/

/-- C1, counterexample: a `put_many` call that fails (the iterator raises
after yielding one of its two announced items) leaves a partial batch
behind — the queue now holds the yielded item and the outstanding-work
counter was incremented — contradicting the claim that every failed
`put_many` leaves the queue exactly as it was. -/
theorem C1_partial_batch_counterexample :
    Queue_put_many (Queue_init 10)
        { reportedLen := 2, hasIter := true, yields := [7], raisesDuring := true }
        none none
      = (.fail .iterRaised, { queue := [7], maxsize := 10, unfinished_tasks := 1 })
    ∧ ({ queue := [7], maxsize := 10, unfinished_tasks := 1 } : PyQueue) ≠ Queue_init 10 := by
  constructor
  · decide
  · decide

/-- C1, amended: a `put_many` call that fails with anything other than an
iterator error raised during the insertion loop (that is, with Full, with
ValueError / OverflowError for an invalid argument, with a length failure,
or with a non-iterable argument) leaves the queue and the counter exactly
as they were; but when the iterator raises during the loop, the items it
yielded before the error remain inserted and counted. -/
theorem C1_amended_partial_batch (s : PyQueue) (items : PyIterable)
    (pb : Option Bool) (pt : Option ℚ) (e : Err) (s1 : PyQueue)
    (h : Queue_put_many s items pb pt = (.fail e, s1)
         ∨ Queue_put_many s items pb pt = (.timeoutFail e, s1)) :
    (e ≠ .iterRaised → s1 = s)
    ∧ (e = .iterRaised →
        s1.queue = s.queue ++ items.yields
        ∧ s1.unfinished_tasks = (s.unfinished_tasks + items.yields.length) % W64) := by
  rcases Queue_put_many_cases s items pb pt with ⟨hs, hf⟩ | ⟨hs, hok | ⟨hr, hfail⟩⟩
  · have hne : e ≠ .iterRaised := by
      refine hf e ?_
      rcases h with h | h
      · left; rw [h]
      · right; rw [h]
    have hs1 : s1 = s := by
      rcases h with h | h <;> · rw [h] at hs; exact hs
    exact ⟨fun _ => hs1, fun hie => absurd hie hne⟩
  · exfalso
    rcases h with h | h <;> · rw [h] at hok; simp at hok
  · rcases h with h | h
    · rw [h] at hfail hs
      simp only [Outcome.fail.injEq] at hfail
      subst hfail
      have hs1 : s1 = { s with queue := s.queue ++ items.yields,
                               unfinished_tasks :=
                                 (s.unfinished_tasks + items.yields.length) % W64 } := hs
      refine ⟨fun hne => absurd rfl hne, fun _ => ?_⟩
      rw [hs1]
      exact ⟨rfl, rfl⟩
    · rw [h] at hfail
      simp at hfail

/-- C1 amended, witness: a non-blocking `put_many` on a full queue fails
with Full and leaves the state unchanged. -/
theorem C1_amended_partial_batch_witness :
    (Queue_put_many { queue := [3], maxsize := 1, unfinished_tasks := 1 }
        (.ofList [8]) (some false) none
      = (.fail .full, { queue := [3], maxsize := 1, unfinished_tasks := 1 })
      ∨ Queue_put_many { queue := [3], maxsize := 1, unfinished_tasks := 1 }
          (.ofList [8]) (some false) none
        = (.timeoutFail .full, { queue := [3], maxsize := 1, unfinished_tasks := 1 }))
    ∧ (Err.full ≠ Err.iterRaised →
        ({ queue := [3], maxsize := 1, unfinished_tasks := 1 } : PyQueue)
          = { queue := [3], maxsize := 1, unfinished_tasks := 1 }) := by
  refine ⟨Or.inl (by decide), ?_⟩
  exact (C1_amended_partial_batch { queue := [3], maxsize := 1, unfinished_tasks := 1 }
    (.ofList [8]) (some false) none .full
    { queue := [3], maxsize := 1, unfinished_tasks := 1 } (Or.inl (by decide))).1

/-- C2, divergence witness: on a full (resp. empty) queue, the C++
`ConcurrentQueue::put` (resp. `pop`) with `block = true` and `timeout = 0`
enters an untimed condition wait instead of failing — contradicting the
claim and the header's own comment (concurrent_queue.hpp line 37) — while
the Python-level `put` / `get` with an explicit timeout of 0 do fail
immediately with Full / Empty as the claim states. -/
theorem C2_timeout_zero_divergence :
    CQ.put { queue := [5], maxsize := 1, unfinished_tasks := 1 } 9 true 0
        = (.waitForever, { queue := [5], maxsize := 1, unfinished_tasks := 1 })
    ∧ CQ.pop { queue := [], maxsize := 1, unfinished_tasks := 0 } true 0
        = (.waitForever, { queue := [], maxsize := 1, unfinished_tasks := 0 })
    ∧ Queue_put { queue := [5], maxsize := 1, unfinished_tasks := 1 } 9 (some true) (some 0)
        = (.fail .full, { queue := [5], maxsize := 1, unfinished_tasks := 1 })
    ∧ Queue_get { queue := [], maxsize := 1, unfinished_tasks := 0 } (some true) (some 0)
        = (.fail .empty, { queue := [], maxsize := 1, unfinished_tasks := 0 }) := by
  refine ⟨by decide, by decide, by decide, by decide⟩

/-- C3: elements leave in exactly the order they entered.  For every run of
operations, the removed items followed by the remaining queue equal the
initial queue followed by the inserted items (strict FIFO); a successful
`get` returns the front (oldest) element and pops it, and a successful
`get_many` returns the first `count` (oldest) elements in insertion
order and drops them. -/
theorem C3_fifo_order :
    (∀ (s : PyQueue) (ops : List Op),
        removedAll (runOps ops s).1 ++ (runOps ops s).2.queue
          = s.queue ++ insertedAll (runOps ops s).1)
    ∧ (∀ (s : PyQueue) (pb : Option Bool) (pt : Option ℚ) (x : Nat) (s1 : PyQueue),
        Queue_get s pb pt = (.ok x, s1) → x = s.queue.headI ∧ s1.queue = s.queue.tail)
    ∧ (∀ (s : PyQueue) (n : Int) (pb : Option Bool) (pt : Option ℚ)
          (l : List Nat) (s1 : PyQueue),
        Queue_get_many s n pb pt = (.ok l, s1) →
          l = s.queue.take n.toNat ∧ s1.queue = s.queue.drop n.toNat) := by
  refine ⟨fun s ops => (runOps_spec ops s).1, ?_, ?_⟩
  · intro s pb pt x s1 h
    rcases Queue_get_spec s pb pt with ⟨hq0, hEq⟩ | ⟨hsnd, hne⟩
    · rw [hEq] at h
      simp only [Prod.mk.injEq, Outcome.ok.injEq] at h
      obtain ⟨hx, hs⟩ := h
      exact ⟨hx.symm, by rw [← hs]⟩
    · exact absurd (congrArg Prod.fst h) (hne x)
  · intro s n pb pt l s1 h
    rcases Queue_get_many_spec s n pb pt with ⟨hEq, hle⟩ | ⟨hsnd, hne⟩
    · rw [hEq] at h
      simp only [Prod.mk.injEq, Outcome.ok.injEq] at h
      obtain ⟨hx, hs⟩ := h
      exact ⟨hx.symm, by rw [← hs]⟩
    · exact absurd (congrArg Prod.fst h) (hne l)

/-- C3 witness: a concrete successful `get` returns the oldest element. -/
theorem C3_fifo_order_witness :
    Queue_get { queue := [4, 5], maxsize := 0, unfinished_tasks := 0 } (some false) none
        = (.ok 4, { queue := [5], maxsize := 0, unfinished_tasks := 0 })
    ∧ (4 = ([4, 5] : List Nat).headI
       ∧ ([5] : List Nat) = ([4, 5] : List Nat).tail) := by
  refine ⟨by decide, ?_⟩
  exact C3_fifo_order.2.1 { queue := [4, 5], maxsize := 0, unfinished_tasks := 0 }
    (some false) none 4 { queue := [5], maxsize := 0, unfinished_tasks := 0 } (by decide)

/-- C4, counterexample: a successful `put_many` whose argument reports
length 1 while its iterator yields three items overfills a capacity-2
queue — the free-slot wait only checks the reported length
(boost_queue.cpp:353) and the loop then pushes every yielded item — so the
stored count and `qsize` exceed the capacity, contradicting the claim that
they never exceed C. -/
theorem C4_overfill_counterexample :
    Queue_put_many (Queue_init 2)
        { reportedLen := 1, hasIter := true, yields := [4, 5, 6], raisesDuring := false }
        none none
      = (.ok (), { queue := [4, 5, 6], maxsize := 2, unfinished_tasks := 3 })
    ∧ 2 < Queue_qsize { queue := [4, 5, 6], maxsize := 2, unfinished_tasks := 3 } := by
  constructor
  · decide
  · decide

/-- C4, amended: with a positive capacity C (at most the maximum of the
`long` constructor argument), and with every `put_many` argument a
well-behaved collection — one whose reported length equals the number of
items its iterator yields and whose iteration ends without raising — the
number of stored elements never exceeds C after any sequence of public
operations, so `qsize` never reports more than C; the analogous
single-step preservation holds for the C++ `ConcurrentQueue::put` / `pop`.
(An iterable under-reporting its length defeats the bound, see the
counterexample.) -/
theorem C4_capacity_bound (C : Nat) (ops : List Op) (hpos : 0 < C)
    (hC : C ≤ 2 ^ 63 - 1) :
    (runOps ops (Queue_init C)).2.queue.length ≤ C
    ∧ Queue_qsize (runOps ops (Queue_init C)).2 ≤ C
    ∧ (∀ (c : CQ) (x : Nat) (b : Bool) (t : Nat),
        0 < c.maxsize → c.queue.length ≤ c.maxsize →
        ((CQ.put c x b t).2).queue.length ≤ c.maxsize)
    ∧ (∀ (c : CQ) (b : Bool) (t : Nat),
        c.queue.length ≤ c.maxsize → ((CQ.pop c b t).2).queue.length ≤ c.maxsize) := by
  have hinit : Queue_init (C : Int)
      = { queue := [], maxsize := C, unfinished_tasks := 0 } := by
    simp [Queue_init]
  have hW : C < W64 := by
    rw [W64_eq]
    have h2 : (2 : Nat) ^ 63 - 1 = 9223372036854775807 := by norm_num
    omega
  rw [hinit]
  have hlen := (runOps_spec ops { queue := [], maxsize := C, unfinished_tasks := 0 }).2.2.2
    hpos hW (by simp)
  refine ⟨hlen, hlen, ?_, ?_⟩
  · intro c x b t hm hq
    unfold CQ.put
    by_cases h1 : c.queue.length < c.maxsize ∨ c.maxsize = 0
    · rw [if_pos h1]
      simp only [List.length_append, List.length_singleton]
      rcases h1 with h1 | h1 <;> omega
    · rw [if_neg h1]
      split_ifs <;> exact hq
  · intro c b t hq
    unfold CQ.pop
    by_cases h1 : ¬ c.queue.isEmpty
    · rw [if_pos h1]
      simp only [List.length_tail]
      omega
    · rw [if_neg h1]
      split_ifs <;> exact hq

/-- C4 witness: with capacity 2, three blocking puts (the third can only
wait) leave at most 2 elements stored. -/
theorem C4_capacity_bound_witness :
    0 < 2 ∧ 2 ≤ 2 ^ 63 - 1
    ∧ (runOps [Op.put 9 none none, Op.put 11 none none, Op.put 13 none none]
        (Queue_init 2)).2.queue.length ≤ 2 := by
  refine ⟨by norm_num, by norm_num, ?_⟩
  exact (C4_capacity_bound 2 [Op.put 9 none none, Op.put 11 none none, Op.put 13 none none]
    (by norm_num) (by norm_num)).1

/-- C5: `task_done` fails (with the `ValueError` that plays the spec's
`NoOutstandingWork` role, `NoMoreTasks` in the C++ class) exactly when the
outstanding-work counter is zero, leaving the state untouched; otherwise it
decrements the counter by one and notifies all `all_tasks_done` waiters
exactly when the decremented value is zero. -/
theorem C5_task_done (s : PyQueue) (c : CQ) :
    ((Queue_task_done s).1 = .fail .valueError ↔ s.unfinished_tasks = 0)
    ∧ (s.unfinished_tasks = 0 → Queue_task_done s = (.fail .valueError, s, false))
    ∧ (s.unfinished_tasks ≠ 0 →
        Queue_task_done s
          = (.ok (), { s with unfinished_tasks := s.unfinished_tasks - 1 },
             decide (s.unfinished_tasks - 1 = 0)))
    ∧ ((CQ.task_done c).1 = .fail .noMoreTasks ↔ c.unfinished_tasks = 0)
    ∧ (c.unfinished_tasks = 0 → CQ.task_done c = (.fail .noMoreTasks, c, false))
    ∧ (c.unfinished_tasks ≠ 0 →
        CQ.task_done c
          = (.ok (), { c with unfinished_tasks := c.unfinished_tasks - 1 },
             decide (c.unfinished_tasks - 1 = 0))) := by
  refine ⟨?_, ?_, ?_, ?_, ?_, ?_⟩
  · unfold Queue_task_done
    by_cases h : s.unfinished_tasks = 0 <;> simp [h]
  · intro h
    unfold Queue_task_done
    rw [if_pos h]
  · intro h
    unfold Queue_task_done
    rw [if_neg h]
  · unfold CQ.task_done
    by_cases h : c.unfinished_tasks = 0 <;> simp [h]
  · intro h
    unfold CQ.task_done
    rw [if_pos h]
  · intro h
    unfold CQ.task_done
    rw [if_neg h]

/-- C5 witness: with one outstanding task, `task_done` succeeds,
decrements to zero and notifies the drain waiters. -/
theorem C5_task_done_witness :
    (1 : Nat) ≠ 0
    ∧ Queue_task_done { queue := [], maxsize := 0, unfinished_tasks := 1 }
        = (.ok (), { queue := [], maxsize := 0, unfinished_tasks := 0 }, true) := by
  refine ⟨by decide, ?_⟩
  exact (C5_task_done { queue := [], maxsize := 0, unfinished_tasks := 1 }
    { queue := [], maxsize := 0, unfinished_tasks := 1 }).2.2.1 (by decide)

/-- C6: starting from a fresh queue, the outstanding-work counter always
equals the number of successfully inserted elements (one per single put,
one per element of a successful batch) minus the number of successful
`task_done` calls, and `get` / `get_many` never change the counter.  (The
counter is a natural number, so it is in particular never negative.) -/
theorem C6_counter_balance :
    (∀ (m : Int) (ops : List Op),
        (insertedAll (runOps ops (Queue_init m)).1).length < W64 →
        (runOps ops (Queue_init m)).2.unfinished_tasks
            + completedCount (runOps ops (Queue_init m)).1
          = (insertedAll (runOps ops (Queue_init m)).1).length)
    ∧ (∀ (s : PyQueue) (pb : Option Bool) (pt : Option ℚ),
        ((Queue_get s pb pt).2).unfinished_tasks = s.unfinished_tasks)
    ∧ (∀ (s : PyQueue) (n : Int) (pb : Option Bool) (pt : Option ℚ),
        ((Queue_get_many s n pb pt).2).unfinished_tasks = s.unfinished_tasks) := by
  refine ⟨?_, ?_, ?_⟩
  · intro m ops hlt
    have h0 : (Queue_init m).unfinished_tasks = 0 := rfl
    have h := (runOps_spec ops (Queue_init m)).2.2.1 (by rw [h0]; simpa using hlt)
    rw [h0] at h
    simpa using h
  · intro s pb pt
    rcases Queue_get_spec s pb pt with ⟨hq0, hEq⟩ | ⟨hsnd, hne⟩
    · rw [hEq]
    · rw [hsnd]
  · intro s n pb pt
    rcases Queue_get_many_spec s n pb pt with ⟨hEq, hle⟩ | ⟨hsnd, hne⟩
    · rw [hEq]
    · rw [hsnd]

/-- C6 witness: a batch of two inserts and one `task_done` leave the
counter at 2 - 1 = 1. -/
theorem C6_counter_balance_witness :
    (insertedAll (runOps [Op.put_many [4, 5] none none, Op.task_done]
        (Queue_init 3)).1).length < W64
    ∧ (runOps [Op.put_many [4, 5] none none, Op.task_done]
          (Queue_init 3)).2.unfinished_tasks
        + completedCount (runOps [Op.put_many [4, 5] none none, Op.task_done]
            (Queue_init 3)).1
      = (insertedAll (runOps [Op.put_many [4, 5] none none, Op.task_done]
          (Queue_init 3)).1).length := by
  constructor
  · decide
  · exact C6_counter_balance.1 3 [Op.put_many [4, 5] none none, Op.task_done] (by decide)

/-- C7: `join` returns at once exactly when the outstanding-work counter is
zero and otherwise waits; its wait loop, run against the counter values
observed at entry and after each wake, exits exactly at the first
observation equal to zero — it never returns while the observed counter is
positive. -/
theorem C7_join_drained (s : PyQueue) (c : CQ) (u n : Nat) (wakes : List Nat) :
    (Queue_join s = .ok () ↔ s.unfinished_tasks = 0)
    ∧ (Queue_join s = .waitForever ↔ s.unfinished_tasks ≠ 0)
    ∧ (CQ.join c = .ok () ↔ c.unfinished_tasks = 0)
    ∧ (u = 0 → joinRun u wakes = some 0)
    ∧ (joinRun u wakes = some n →
        (u :: wakes).get? n = some 0 ∧ ∀ i, i < n → (u :: wakes).get? i ≠ some 0) := by
  refine ⟨?_, ?_, ?_, ?_, joinRun_first_zero wakes u n⟩
  · unfold Queue_join
    by_cases h : s.unfinished_tasks = 0 <;> simp [h]
  · unfold Queue_join
    by_cases h : s.unfinished_tasks = 0 <;> simp [h]
  · unfold CQ.join
    by_cases h : c.unfinished_tasks = 0 <;> simp [h]
  · intro hu
    subst hu
    cases wakes <;> rfl

/-- C7 witness: observing counter values 2, then 1, then 0, the join loop
exits after the second wake, at the first zero observation. -/
theorem C7_join_drained_witness :
    joinRun 2 [1, 0] = some 2
    ∧ (((2 : Nat) :: [1, 0]).get? 2 = some 0
       ∧ ∀ i, i < 2 → ((2 : Nat) :: [1, 0]).get? i ≠ some 0) := by
  refine ⟨by decide, ?_⟩
  exact (C7_join_drained { queue := [], maxsize := 0, unfinished_tasks := 0 }
    { queue := [], maxsize := 0, unfinished_tasks := 0 } 2 2 [1, 0]).2.2.2.2 (by decide)

/-- C8: a batch larger than a positive capacity makes `put_many` /
`get_many` fail at once with an invalid-argument error (`ValueError`, or
`OverflowError` for an out-of-range timeout — both of the spec's
`InvalidArgument` kind), for every block flag and timeout argument,
without waiting and without touching the state. -/
theorem C8_invalid_batch_size (s : PyQueue) (l : List Nat) (n : Int)
    (pb : Option Bool) (pt : Option ℚ) :
    (0 < s.maxsize → s.maxsize < l.length →
        ∃ e, Queue_put_many s (.ofList l) pb pt = (.fail e, s)
          ∧ (e = .valueError ∨ e = .overflowError))
    ∧ (0 < s.maxsize → s.maxsize < n.toNat →
        ∃ e, Queue_get_many s n pb pt = (.fail e, s)
          ∧ (e = .valueError ∨ e = .overflowError)) := by
  constructor
  · intro hm hlen
    unfold Queue_put_many
    cases hp : parse_block_and_timeout pb pt with
    | error e0 => exact ⟨e0, rfl, parse_error_kind pb pt e0 hp⟩
    | ok bt =>
        obtain ⟨b, t⟩ := bt
        dsimp only [PyIterable.ofList]
        rw [if_neg (by omega : ¬ ((l.length : Int) = -1)),
            if_neg (by omega : ¬ ((l.length : Int) = 0)),
            if_neg (by omega : ¬ ((l.length : Int) < 0)),
            if_pos (⟨hm, by simpa using hlen⟩ :
              0 < s.maxsize ∧ s.maxsize < ((l.length : Int)).toNat)]
        exact ⟨.valueError, rfl, Or.inl rfl⟩
  · intro hm hn
    unfold Queue_get_many
    cases hp : parse_block_and_timeout pb pt with
    | error e0 => exact ⟨e0, rfl, parse_error_kind pb pt e0 hp⟩
    | ok bt =>
        obtain ⟨b, t⟩ := bt
        dsimp only
        rw [if_neg (by omega : ¬ (n = 0)),
            if_neg (by omega : ¬ (n < 0)),
            if_pos (⟨hm, hn⟩ : 0 < s.maxsize ∧ s.maxsize < n.toNat)]
        exact ⟨.valueError, rfl, Or.inl rfl⟩

/-- C8 witness: a batch of three against capacity two fails with
ValueError on both sides. -/
theorem C8_invalid_batch_size_witness :
    (∃ e, Queue_put_many { queue := [], maxsize := 2, unfinished_tasks := 0 }
        (.ofList [7, 8, 9]) none none
      = (.fail e, { queue := [], maxsize := 2, unfinished_tasks := 0 })
      ∧ (e = .valueError ∨ e = .overflowError))
    ∧ (∃ e, Queue_get_many { queue := [], maxsize := 2, unfinished_tasks := 0 } 5 none none
      = (.fail e, { queue := [], maxsize := 2, unfinished_tasks := 0 })
      ∧ (e = .valueError ∨ e = .overflowError)) := by
  constructor
  · exact (C8_invalid_batch_size { queue := [], maxsize := 2, unfinished_tasks := 0 }
      [7, 8, 9] 5 none none).1 (by decide) (by decide)
  · exact (C8_invalid_batch_size { queue := [], maxsize := 2, unfinished_tasks := 0 }
      [7, 8, 9] 5 none none).2 (by decide) (by decide)

/-- C9, counterexample: `get_many(0, block=True, timeout=-1)` does not
return an empty collection — the timeout is parsed before the count check
(boost_queue.cpp:502-507), so the call raises ValueError instead of
succeeding, contradicting the claim's "every block/timeout combination". -/
theorem C9_invalid_timeout_counterexample :
    Queue_get_many { queue := [], maxsize := 0, unfinished_tasks := 0 } 0
        (some true) (some (-1))
      = (.fail .valueError, { queue := [], maxsize := 0, unfinished_tasks := 0 })
    ∧ ((.fail .valueError, ({ queue := [], maxsize := 0, unfinished_tasks := 0 } : PyQueue))
        : Outcome (List Nat) × PyQueue)
      ≠ (.ok [], { queue := [], maxsize := 0, unfinished_tasks := 0 }) := by
  constructor
  · decide
  · decide

/-- C9, amended: `get_many` with count 0 returns an empty collection at
once, successfully, for every state, every block flag and every valid
timeout (absent/None, or between 0 and the `time_t` maximum), without
entering any wait path and without modifying the queue; an invalid
timeout (negative, or beyond `time_t`) is instead rejected by the argument
parsing that runs before the count check, with ValueError/OverflowError,
still without waiting and without modifying the queue. -/
theorem C9_get_many_zero (s : PyQueue) (pb : Option Bool) (pt : Option ℚ) :
    ((∀ t, pt = some t → 0 ≤ t ∧ t ≤ time_t_max_as_double) →
        Queue_get_many s 0 pb pt = (.ok [], s))
    ∧ (∀ t, pt = some t → (t < 0 ∨ time_t_max_as_double < t) →
        ∃ e, Queue_get_many s 0 pb pt = (.fail e, s)
          ∧ (e = .valueError ∨ e = .overflowError)) := by
  constructor
  · intro hvalid
    unfold Queue_get_many
    cases pt with
    | none =>
        dsimp only [parse_block_and_timeout]
        rw [if_pos rfl]
    | some t =>
        obtain ⟨ht0, ht1⟩ := hvalid t rfl
        dsimp only [parse_block_and_timeout]
        rw [if_neg (not_lt.mpr ht0), if_neg (not_lt.mpr ht1)]
        by_cases hz : t = 0
        · rw [if_pos hz]
          dsimp only
          rw [if_pos rfl]
        · rw [if_neg hz]
          dsimp only
          rw [if_pos rfl]
  · intro t ht hinv
    subst ht
    unfold Queue_get_many
    dsimp only [parse_block_and_timeout]
    rcases hinv with hlt | hgt
    · rw [if_pos hlt]
      exact ⟨.valueError, rfl, Or.inl rfl⟩
    · have ht0 : ¬ t < 0 := by
        have hpos : (0 : ℚ) ≤ time_t_max_as_double := by
          norm_num [time_t_max_as_double]
        exact not_lt.mpr (le_trans hpos hgt.le)
      rw [if_neg ht0, if_pos hgt]
      exact ⟨.overflowError, rfl, Or.inr rfl⟩

/-- C9 witness: `get_many 0` on a nonempty bounded queue with block true
and timeout 5 returns an empty tuple and changes nothing. -/
theorem C9_get_many_zero_witness :
    (∀ t : ℚ, (some (5 : ℚ)) = some t → 0 ≤ t ∧ t ≤ time_t_max_as_double)
    ∧ Queue_get_many { queue := [1], maxsize := 1, unfinished_tasks := 1 } 0
        (some true) (some 5)
      = (.ok [], { queue := [1], maxsize := 1, unfinished_tasks := 1 }) := by
  have hv : ∀ t : ℚ, (some (5 : ℚ)) = some t → 0 ≤ t ∧ t ≤ time_t_max_as_double := by
    intro t ht
    obtain rfl : (5 : ℚ) = t := by injection ht
    constructor <;> norm_num [time_t_max_as_double]
  exact ⟨hv, (C9_get_many_zero { queue := [1], maxsize := 1, unfinished_tasks := 1 }
    (some true) (some 5)).1 hv⟩

/-- C10: a negative capacity argument is accepted and silently clamped to
0, i.e. an unbounded queue, in both the Python `Queue_init` and the C++
constructor; on an unbounded queue the free-slot wait always succeeds at
once and `ConcurrentQueue::put` always succeeds. -/
theorem C10_negative_maxsize (m : Int) (hm : m < 0) :
    Queue_init m = { queue := [], maxsize := 0, unfinished_tasks := 0 }
    ∧ CQ.init m = { queue := [], maxsize := 0, unfinished_tasks := 0 }
    ∧ (∀ (qlen : Nat) (block : Bool) (t : ℚ) (nb : Nat),
        wait_for_free_slots 0 qlen block t nb = .ok ())
    ∧ (∀ (c : CQ) (x : Nat) (b : Bool) (t : Nat),
        c.maxsize = 0 → (CQ.put c x b t).1 = .ok ()) := by
  refine ⟨?_, ?_, ?_, ?_⟩
  · unfold Queue_init
    rw [if_pos hm]
  · unfold CQ.init
    rw [if_pos hm]
  · intro qlen block t nb
    unfold wait_for_free_slots
    rw [if_pos rfl]
  · intro c x b t h0
    unfold CQ.put
    rw [if_pos (Or.inr h0)]

/-- C10 witness: constructing with -7 yields the unbounded empty queue. -/
theorem C10_negative_maxsize_witness :
    (-7 : Int) < 0
    ∧ Queue_init (-7) = { queue := [], maxsize := 0, unfinished_tasks := 0 }
    ∧ CQ.init (-7) = { queue := [], maxsize := 0, unfinished_tasks := 0 } := by
  refine ⟨by decide, ?_, ?_⟩
  · exact (C10_negative_maxsize (-7) (by decide)).1
  · exact (C10_negative_maxsize (-7) (by decide)).2.1

end BoostQueue
